import Mathlib

/-!
# FileFlow Bridge — verification of the bridge coordinator

Shallow embedding of the Go bridge server (`bridge/main.go`): the handle
registry, token minter, stream-acceptor handshake, download splicer, status
handler and expiry sweeper, together with proofs about the spec's claims.

Conventions of the embedding:
* Go `time.Time` values are modelled as `Int` instants (the zero value is `0`);
  `t1.Before(t2)` is `t1 < t2` and `t.Add(d)` is `t + d`.
* Go maps are modelled as association lists with overwrite-on-insert and
  erase-all-on-delete, so keys stay unique exactly as in a Go map.
* The provider-side TCP connection is modelled by an opaque numeral id;
  functions that may close connections additionally return the list of ids
  they closed.
* The cryptographic RNG is modelled by an oracle `Nat → Nat` giving the value
  drawn at each step (the Go code reduces each draw modulo the charset size,
  which the embedding mirrors with `% 62`); the 16 random bytes consumed by
  `uuid.New()` are a second oracle.
* Goroutine-level interleavings are not modelled; each handler is embedded as
  the sequential function the Go code executes, with its inputs (parsed
  request body, handshake line, the sequence of read results seen by the
  splice loop) passed as explicit data.
-/

/-- Per-file session record, mirroring Go's `FileMetadata` struct. -/
structure FileMetadata where
  filename : String
  originalFilename : String
  size : Int
  status : String
  clientIP : String
  authToken : String
  registeredAt : Int
  expiresAt : Int
  streamStarted : Int
  clientAddress : String
deriving Repr, DecidableEq

/-- Process-wide counters, mirroring the fields of Go's `ServerStats` that the
registry and download paths mutate. -/
structure ServerStats where
  filesRegistered : Int
  filesTransferred : Int
  bytesTransferred : Int
deriving Repr, DecidableEq

/-- The registry map `auth token → FileMetadata`, as an association list with
unique keys (the Go `map[string]*FileMetadata`). -/
abbrev Registry := List (String × FileMetadata)

/-- Go map lookup: first (and, with unique keys, only) binding of the token. -/
def registryLookup (reg : Registry) (tok : String) : Option FileMetadata :=
  match reg with
  | [] => none
  | (k, m) :: rest => if k = tok then some m else registryLookup rest tok

/-- Go map delete: remove every binding of the token. -/
def registryErase (reg : Registry) (tok : String) : Registry :=
  reg.filter (fun p => p.1 ≠ tok)

/-- Go map insert: overwrite any existing binding of the token. -/
def registryInsert (reg : Registry) (tok : String) (m : FileMetadata) : Registry :=
  (tok, m) :: registryErase reg tok

/-- The `activeStreams` map `auth token → connection id`. -/
abbrev Streams := List (String × Nat)

def streamLookup (s : Streams) (tok : String) : Option Nat :=
  match s with
  | [] => none
  | (k, c) :: rest => if k = tok then some c else streamLookup rest tok

def streamErase (s : Streams) (tok : String) : Streams :=
  s.filter (fun p => p.1 ≠ tok)

def streamInsert (s : Streams) (tok : String) (c : Nat) : Streams :=
  (tok, c) :: streamErase s tok

/-- The shared state of a `FileFlowBridge` instance: registry, active provider
streams, the `downloadCompleted` flag set, and the mutable counters. -/
structure BridgeState where
  fileRegistry : Registry
  activeStreams : Streams
  downloadCompleted : List String
  serverStats : ServerStats
deriving Repr, DecidableEq

/-- Go's `downloadCompleted[tok]`: membership look-up with `false` default. -/
def completedFlag (st : BridgeState) (tok : String) : Bool :=
  st.downloadCompleted.contains tok

/-- `removeFileResources`: delete the registry entry, close and drop the
active stream if present, and clear the completed flag.  Returns the new state
together with the ids of the connections it closed. -/
def removeFileResources (st : BridgeState) (tok : String) : BridgeState × List Nat :=
  let closed := match streamLookup st.activeStreams tok with
    | some c => [c]
    | none => []
  ({ st with
      fileRegistry := registryErase st.fileRegistry tok
      activeStreams := streamErase st.activeStreams tok
      downloadCompleted := st.downloadCompleted.filter (fun t => t ≠ tok) },
   closed)

/-! ## Token minter (`createNewID`, `uuid.New`, and `main`'s length clamp) -/

/-- The 62-character alphabet of `createNewID`. -/
def charset : List Char :=
  "abcdefghijklmnopqrstuvwxyzABCDEFGHIJKLMNOPQRSTUVWXYZ0123456789".toList

def hexDigits : List Char := "0123456789abcdef".toList

/-- Lower-case hexadecimal rendering of one byte. -/
def byteHex (b : Nat) : List Char :=
  [hexDigits.getD (b / 16 % 16) '0', hexDigits.getD (b % 16) '0']

/-- The byte actually rendered by `uuid.New()` at index `i`: byte 6 carries the
version nibble `0x4`, byte 8 the RFC 4122 variant bits. -/
def uuidByte (ub : Nat → Nat) (i : Nat) : Nat :=
  if i = 6 then ub 6 % 16 + 64
  else if i = 8 then ub 8 % 64 + 128
  else ub i % 256

/-- `uuid.New().String()`: 16 random bytes rendered in the canonical
8-4-4-4-12 hyphenated form. -/
def uuidString (ub : Nat → Nat) : String :=
  String.mk
    (byteHex (uuidByte ub 0) ++ byteHex (uuidByte ub 1) ++
     byteHex (uuidByte ub 2) ++ byteHex (uuidByte ub 3) ++ ['-'] ++
     byteHex (uuidByte ub 4) ++ byteHex (uuidByte ub 5) ++ ['-'] ++
     byteHex (uuidByte ub 6) ++ byteHex (uuidByte ub 7) ++ ['-'] ++
     byteHex (uuidByte ub 8) ++ byteHex (uuidByte ub 9) ++ ['-'] ++
     byteHex (uuidByte ub 10) ++ byteHex (uuidByte ub 11) ++
     byteHex (uuidByte ub 12) ++ byteHex (uuidByte ub 13) ++
     byteHex (uuidByte ub 14) ++ byteHex (uuidByte ub 15))

/-- `createNewID`: for a configured length in `[6, 32]`, draw that many
characters from `charset` using the RNG oracle (each Go draw is
`rand.Int(rand.Reader, 62)`, i.e. a value below 62, which `% 62` mirrors);
otherwise fall back to a UUID string. -/
def createNewID (tokenLength : Int) (rnd : Nat → Nat) (ub : Nat → Nat) : String :=
  if tokenLength < 6 ∨ tokenLength > 32 then uuidString ub
  else String.mk ((List.range tokenLength.toNat).map fun i => charset.getD (rnd i % 62) 'a')

/-- `main`'s token-length resolution: an out-of-range `--token-len` is reset
to the default 8 before the bridge is constructed. -/
def resolveTokenLen (l : Int) : Int :=
  if l < 6 ∨ l > 32 then 8 else l

/-- `main`'s size conversion: the configured maximum is given in GiB and
converted to bytes. -/
def maxFileSizeBytes (g : Int) : Int := g * 1024 * 1024 * 1024

/-! ## Registration (`handleFileRegistration`) -/

/-- The decoded body of `POST /register`. -/
structure RegisterData where
  filename : String
  size : Int
deriving Repr, DecidableEq

/-- Result of `POST /register`.  `badRequest` is HTTP 400, `tooLarge`
HTTP 413, `ok` the 200 response carrying the minted token. -/
inductive RegResult where
  | badRequest
  | tooLarge
  | ok (token : String) (expiresAt : Int)
deriving Repr, DecidableEq

/-- The session TTL: `time.Now().Add(2 * time.Hour)`, in nanoseconds. -/
def twoHours : Int := 7200000000000

/-- The metadata record stored for a fresh registration. -/
def regMetadata (d : RegisterData) (now : Int) (ip tok : String) : FileMetadata :=
  { filename := d.filename
    originalFilename := d.filename
    size := d.size
    status := "registered"
    clientIP := ip
    authToken := tok
    registeredAt := now
    expiresAt := now + twoHours
    streamStarted := 0
    clientAddress := "" }

/-- `handleFileRegistration`.  The request body is `none` when absent,
`some none` when it fails to decode as JSON, and `some (some d)` when it
decodes to `d`.  A fresh token is minted with `createNewID` and inserted with
no collision check. -/
def handleFileRegistration (maxFileSize tokenLength : Int) (rnd ub : Nat → Nat)
    (now : Int) (ip : String) (body : Option (Option RegisterData))
    (st : BridgeState) : RegResult × BridgeState :=
  match body with
  | none => (.badRequest, st)
  | some none => (.badRequest, st)
  | some (some d) =>
    if d.filename = "" then (.badRequest, st)
    else if d.size > maxFileSize then (.tooLarge, st)
    else
      let tok := createNewID tokenLength rnd ub
      (.ok tok (now + twoHours),
       { st with
          fileRegistry := registryInsert st.fileRegistry tok (regMetadata d now ip tok)
          serverStats := { st.serverStats with
            filesRegistered := st.serverStats.filesRegistered + 1 } })

/-! ## Stream acceptor (`handleStreamConnection`, `validateStreamConnection`) -/

/-- `validateStreamConnection`: the session must exist, carry the matching
token, be in state `registered`, not be expired (`ExpiresAt.Before(now)`
fails the check), and not be marked completed. -/
def validateStreamConnection (st : BridgeState) (now : Int) (tok : String) : Bool :=
  match registryLookup st.fileRegistry tok with
  | none => false
  | some m =>
    if m.authToken ≠ tok then false
    else if m.status ≠ "registered" then false
    else if m.expiresAt < now then false
    else if completedFlag st tok then false
    else true

/-- What the acceptor got out of reading the handshake line: a read error
(including the 15-second deadline expiring), a line that is not valid JSON,
or a decoded metadata map whose `auth_token` field is `tok`. -/
inductive HandshakeInput where
  | readError
  | malformed (raw : String)
  | metadata (tok : String)
deriving Repr, DecidableEq

/-- Observable outcome of one accepted provider connection: the lines written
back on the socket, whether the acceptor closed the socket on return, and the
updated shared state. -/
structure HandshakeOutcome where
  writes : List String
  connClosed : Bool
  newState : BridgeState
deriving Repr, DecidableEq

/-- `handleStreamConnection` up to the point of handing the socket over.  On a
read error or a JSON decode error the function returns at once and the
deferred handler closes the unhandled connection — nothing is written.  On a
decoded line it validates; failure writes `INVALID_CONNECTION\n` and closes,
success transitions the session to `streaming`, records peer and start time,
installs the stream, writes `STREAM_READY\n`, and keeps the socket open. -/
def handleStreamConnection (st : BridgeState) (now : Int) (peer : String)
    (connId : Nat) (input : HandshakeInput) : HandshakeOutcome :=
  match input with
  | .readError => { writes := [], connClosed := true, newState := st }
  | .malformed _ => { writes := [], connClosed := true, newState := st }
  | .metadata tok =>
    if validateStreamConnection st now tok then
      let reg := match registryLookup st.fileRegistry tok with
        | some m => registryInsert st.fileRegistry tok
            { m with status := "streaming", streamStarted := now, clientAddress := peer }
        | none => st.fileRegistry
      { writes := ["STREAM_READY\n"]
        connClosed := false
        newState := { st with
          fileRegistry := reg
          activeStreams := streamInsert st.activeStreams tok connId } }
    else
      { writes := ["INVALID_CONNECTION\n"], connClosed := true, newState := st }

/-! ## Download handler (`handleDownloadRequest`)

The splice loop is embedded as a fold over the sequence of results the
`streamConn.Reader.Read` calls produce.  Through `bufio.Reader` over a
`net.TCPConn`, a read never returns data together with an error — a deadline
timeout always surfaces as `(0, timeout)` — so each event is either a chunk of
bytes (with the success of the subsequent response write), a timeout, a
non-timeout read error, or EOF. -/

/-- One result of `streamConn.Reader.Read` (plus, for a data chunk, whether
the write of that chunk to the HTTP response succeeded). -/
inductive SpliceEvent where
  | chunk (bytes : List Nat) (writeOk : Bool)
  | timeout
  | readErr
  | eof
deriving Repr, DecidableEq

/-- How the splice loop exited. -/
inductive SpliceEnd where
  | eofEnd
  | zeroRead
  | readErrEnd
  | writeErrEnd
  | exhausted
deriving Repr, DecidableEq

/-- Running accumulator of the splice loop: bytes delivered to the consumer,
the `totalTransferred` and `localChunk` counters, the global stats, and the
`activeStreams` map (which `handleStreamError` may mutate mid-loop). -/
structure SpliceAcc where
  output : List Nat
  totalTransferred : Int
  localChunk : Int
  stats : ServerStats
  activeStreams : Streams
deriving Repr, DecidableEq

/-- The 10 MiB threshold at which `localChunk` is folded into the global
`bytesTransferred` counter. -/
def chunkFold : Int := 10 * 1024 * 1024

/-- `handleStreamError` as called from the splice loop (the error there is
never `io.EOF` and never a timeout): it removes the token's entry from
`activeStreams` without closing the connection. -/
def handleStreamError (tok : String) (acc : SpliceAcc) : SpliceAcc :=
  { acc with activeStreams := streamErase acc.activeStreams tok }

/-- The splice loop.  A timeout re-arms the deadline and retries; a
non-timeout read error runs `handleStreamError` and breaks; EOF breaks; a
zero-byte read breaks; otherwise the chunk is written to the consumer (a write
failure breaks), the counters advance, and `localChunk` is folded into the
global counter once it reaches 10 MiB. -/
def spliceLoop (tok : String) (evs : List SpliceEvent) (acc : SpliceAcc) :
    SpliceAcc × SpliceEnd :=
  match evs with
  | [] => (acc, .exhausted)
  | e :: rest =>
    match e with
    | .eof => (acc, .eofEnd)
    | .timeout => spliceLoop tok rest acc
    | .readErr => (handleStreamError tok acc, .readErrEnd)
    | .chunk bytes writeOk =>
      if bytes.length = 0 then (acc, .zeroRead)
      else if writeOk then
        let lc := acc.localChunk + bytes.length
        let acc' :=
          if lc ≥ chunkFold then
            { acc with
                output := acc.output ++ bytes
                totalTransferred := acc.totalTransferred + bytes.length
                localChunk := 0
                stats := { acc.stats with
                  bytesTransferred := acc.stats.bytesTransferred + lc } }
          else
            { acc with
                output := acc.output ++ bytes
                totalTransferred := acc.totalTransferred + bytes.length
                localChunk := lc }
        spliceLoop tok rest acc'
      else (acc, .writeErrEnd)

/-- The response headers set just before the splice starts. -/
def downloadHeaders (m : FileMetadata) (tok : String) : List (String × String) :=
  [("Content-Type", "application/octet-stream"),
   ("Content-Disposition", "attachment; filename=\"" ++ m.originalFilename ++ "\""),
   ("X-FileFlow-FileID", tok),
   ("X-FileFlow-Original-Filename", m.originalFilename)] ++
  (if m.size > 0 then [("Content-Length", toString m.size)] else [])

/-- Consumer-facing outcome of `GET /download/{token}`: 404, a 503 (wrong
state, or no provider stream after the bounded wait), or a streamed response
with its headers, delivered body, and the way the splice ended. -/
inductive DownloadResult where
  | notFound
  | notReady
  | sourceUnavailable
  | streamed (headers : List (String × String)) (body : List Nat) (endKind : SpliceEnd)
deriving Repr, DecidableEq

/-- The splice loop's starting accumulator for a request against state `st`:
counters at zero, the global stats and stream map as currently shared. -/
def spliceInit (st : BridgeState) : SpliceAcc :=
  { output := [], totalTransferred := 0, localChunk := 0
    stats := st.serverStats, activeStreams := st.activeStreams }

/-- The epilogue after the splice loop: fold the residual `localChunk` into
the global `bytesTransferred`, bump `filesTransferred`, and set the
download-completed flag for the token. -/
def markCompleted (st : BridgeState) (tok : String) (acc : SpliceAcc) : BridgeState :=
  { st with
      activeStreams := acc.activeStreams
      serverStats := { acc.stats with
        filesTransferred := acc.stats.filesTransferred + 1
        bytesTransferred := acc.stats.bytesTransferred + acc.localChunk }
      downloadCompleted :=
        if completedFlag st tok then st.downloadCompleted
        else tok :: st.downloadCompleted }

/-- `handleDownloadRequest`.  404 if the token is absent or flagged completed
(this path evicts nothing); from there on `removeFileResources` is deferred,
so the two 503 paths and the splice path all evict the session on return.
After the splice the residual `localChunk` is folded into the global counter,
`filesTransferred` is bumped, the completed flag is set, and the deferred
eviction removes the registry entry, closes the stream still registered (if
any), and clears the flag.  Returns the result, the final state, and the
closed connection ids.  The bounded wait for the provider stream collapses,
in this sequential embedding, to whether `activeStreams` holds the token. -/
def handleDownloadRequest (st : BridgeState) (tok : String)
    (evs : List SpliceEvent) : DownloadResult × BridgeState × List Nat :=
  match registryLookup st.fileRegistry tok with
  | none => (.notFound, st, [])
  | some m =>
    if completedFlag st tok then (.notFound, st, [])
    else if m.status ≠ "streaming" ∧ m.status ≠ "registered" then
      (.notReady, (removeFileResources st tok).1, (removeFileResources st tok).2)
    else
      match streamLookup st.activeStreams tok with
      | none =>
        (.sourceUnavailable, (removeFileResources st tok).1, (removeFileResources st tok).2)
      | some _ =>
        let r := spliceLoop tok evs (spliceInit st)
        let marked := markCompleted st tok r.1
        (.streamed (downloadHeaders m tok) r.1.output r.2,
         (removeFileResources marked tok).1, (removeFileResources marked tok).2)

/-! ## Status handler (`handleStatusCheck`) -/

/-- The JSON snapshot returned by a successful `GET /status/{token}`:
`stream_started` and `client_address` are included only when set. -/
structure StatusPayload where
  filename : String
  originalFilename : String
  size : Int
  status : String
  clientIP : String
  registeredAt : Int
  expiresAt : Int
  downloadCompleted : Bool
  streamStarted : Option Int
  clientAddress : Option String
deriving Repr, DecidableEq

inductive StatusResult where
  | notFound
  | ok (payload : StatusPayload)
deriving Repr, DecidableEq

/-- `handleStatusCheck`: 404 only when the token has no registry entry;
otherwise a 200 snapshot that reports the `downloadCompleted` flag as a
field. -/
def handleStatusCheck (st : BridgeState) (tok : String) : StatusResult :=
  match registryLookup st.fileRegistry tok with
  | none => .notFound
  | some m =>
    .ok { filename := m.filename
          originalFilename := m.originalFilename
          size := m.size
          status := m.status
          clientIP := m.clientIP
          registeredAt := m.registeredAt
          expiresAt := m.expiresAt
          downloadCompleted := completedFlag st tok
          streamStarted := if m.streamStarted = 0 then none else some m.streamStarted
          clientAddress := if m.clientAddress = "" then none else some m.clientAddress }

/-! ## Expiry sweeper (`cleanupResources`, one tick) -/

/-- The enumeration pass of one sweeper tick: the tokens whose
`ExpiresAt.Before(currentTime)` holds, i.e. strictly earlier than `now`. -/
def sweepExpired (st : BridgeState) (now : Int) : List String :=
  (st.fileRegistry.filter (fun p => p.2.expiresAt < now)).map Prod.fst

/-- One eviction step of the sweeper loop body. -/
def cleanupStep (acc : BridgeState × List Nat) (tok : String) : BridgeState × List Nat :=
  let r := removeFileResources acc.1 tok
  (r.1, acc.2 ++ r.2)

/-- One tick of `cleanupResources`: enumerate the expired tokens, then evict
each with `removeFileResources`.  Returns the final state and the closed
connection ids. -/
def cleanupTick (st : BridgeState) (now : Int) : BridgeState × List Nat :=
  (sweepExpired st now).foldl cleanupStep (st, [])

/-! ## Map lemmas -/

theorem registryLookup_erase_self (reg : Registry) (tok : String) :
    registryLookup (registryErase reg tok) tok = none := by
  induction reg with
  | nil => rfl
  | cons p rest ih =>
    by_cases h : p.1 = tok
    · simpa [registryErase, List.filter_cons, h] using ih
    · simpa [registryErase, List.filter_cons, h, registryLookup] using ih

theorem registryLookup_erase_ne (reg : Registry) (tok t : String) (h : t ≠ tok) :
    registryLookup (registryErase reg tok) t = registryLookup reg t := by
  induction reg with
  | nil => rfl
  | cons p rest ih =>
    by_cases hp : p.1 = tok
    · have hpt : p.1 ≠ t := by rw [hp]; exact fun hc => h hc.symm
      have e1 : registryErase (p :: rest) tok = registryErase rest tok := by
        simp [registryErase, List.filter_cons, hp]
      rw [e1, ih]
      simp [registryLookup, hpt]
    · have e1 : registryErase (p :: rest) tok = p :: registryErase rest tok := by
        simp [registryErase, List.filter_cons, hp]
      rw [e1]
      by_cases hpt : p.1 = t
      · simp [registryLookup, hpt]
      · simp [registryLookup, hpt, ih]

theorem registryLookup_insert_self (reg : Registry) (tok : String) (m : FileMetadata) :
    registryLookup (registryInsert reg tok m) tok = some m := by
  simp [registryInsert, registryLookup]

theorem registryLookup_insert_ne (reg : Registry) (tok t : String) (m : FileMetadata)
    (h : t ≠ tok) : registryLookup (registryInsert reg tok m) t = registryLookup reg t := by
  simp only [registryInsert, registryLookup]
  rw [if_neg (fun hc => h hc.symm)]
  exact registryLookup_erase_ne reg tok t h

theorem registryLookup_mem (reg : Registry) (tok : String) (m : FileMetadata)
    (h : registryLookup reg tok = some m) : (tok, m) ∈ reg := by
  induction reg with
  | nil => simp [registryLookup] at h
  | cons p rest ih =>
    by_cases hp : p.1 = tok
    · simp only [registryLookup, hp, ite_true] at h
      cases h
      have hpe : (tok, p.2) = p := by rw [← hp]
      rw [hpe]
      exact List.mem_cons_self _ _
    · simp only [registryLookup, hp, ite_false] at h
      exact List.mem_cons_of_mem _ (ih h)

theorem registryLookup_of_mem_nodup (reg : Registry) (tok : String) (m : FileMetadata)
    (hmem : (tok, m) ∈ reg) (hnd : (reg.map Prod.fst).Nodup) :
    registryLookup reg tok = some m := by
  induction reg with
  | nil => simp at hmem
  | cons p rest ih =>
    have hnd2 : (p.1 :: rest.map Prod.fst).Nodup := by simpa using hnd
    rcases List.mem_cons.mp hmem with heq | htail
    · have h1 : p.1 = tok := by rw [← heq]
      have h2 : p.2 = m := by rw [← heq]
      simp [registryLookup, h1, h2]
    · have hp : p.1 ≠ tok := by
        intro hc
        exact (List.nodup_cons.mp hnd2).1
          (by rw [hc]; exact List.mem_map.mpr ⟨(tok, m), htail, rfl⟩)
      simp only [registryLookup, hp, ite_false]
      exact ih htail (List.nodup_cons.mp hnd2).2

theorem streamLookup_erase_self (s : Streams) (tok : String) :
    streamLookup (streamErase s tok) tok = none := by
  induction s with
  | nil => rfl
  | cons p rest ih =>
    by_cases h : p.1 = tok
    · simpa [streamErase, List.filter_cons, h] using ih
    · simpa [streamErase, List.filter_cons, h, streamLookup] using ih

theorem completed_filter_not_contains (l : List String) (tok : String) :
    (l.filter (fun t => t ≠ tok)).contains tok = false := by
  rw [Bool.eq_false_iff]
  intro hc
  have hmem : tok ∈ l.filter (fun t => t ≠ tok) := List.elem_iff.mp hc
  have := List.of_mem_filter hmem
  simp at this

/-! ## Eviction lemmas -/

theorem removeFileResources_lookup_self (st : BridgeState) (tok : String) :
    registryLookup (removeFileResources st tok).1.fileRegistry tok = none :=
  registryLookup_erase_self _ _

theorem removeFileResources_lookup_ne (st : BridgeState) (tok t : String) (h : t ≠ tok) :
    registryLookup (removeFileResources st tok).1.fileRegistry t
      = registryLookup st.fileRegistry t :=
  registryLookup_erase_ne _ _ _ h

theorem removeFileResources_stats (st : BridgeState) (tok : String) :
    (removeFileResources st tok).1.serverStats = st.serverStats := rfl

theorem removeFileResources_completed (st : BridgeState) (tok : String) :
    completedFlag (removeFileResources st tok).1 tok = false :=
  completed_filter_not_contains _ _

theorem removeFileResources_stream_self (st : BridgeState) (tok : String) :
    streamLookup (removeFileResources st tok).1.activeStreams tok = none :=
  streamLookup_erase_self _ _

theorem removeFileResources_preserves_absent (st : BridgeState) (t tok : String)
    (h : registryLookup st.fileRegistry tok = none) :
    registryLookup (removeFileResources st t).1.fileRegistry tok = none := by
  by_cases ht : tok = t
  · rw [ht]
    exact registryLookup_erase_self _ _
  · show registryLookup (registryErase st.fileRegistry t) tok = none
    rw [registryLookup_erase_ne _ _ _ ht]
    exact h

theorem cleanupFold_lookup_none (ts : List String) (start : BridgeState × List Nat)
    (tok : String)
    (h : tok ∈ ts ∨ registryLookup start.1.fileRegistry tok = none) :
    registryLookup (ts.foldl cleanupStep start).1.fileRegistry tok = none := by
  induction ts generalizing start with
  | nil =>
    rcases h with h | h
    · simp at h
    · exact h
  | cons t rest ih =>
    rw [List.foldl_cons]
    apply ih
    rcases h with h | h
    · rcases List.mem_cons.mp h with heq | htail
      · right
        rw [heq]
        exact removeFileResources_lookup_self _ _
      · left
        exact htail
    · right
      exact removeFileResources_preserves_absent _ _ _ h

/-! ## Splice-loop lemmas -/

/-- The quantity the splice loop conserves: the global counter plus the
not-yet-folded local count, minus the bytes delivered so far. -/
def spliceMeasure (acc : SpliceAcc) : Int :=
  acc.stats.bytesTransferred + acc.localChunk - acc.output.length

theorem spliceLoop_measure (tok : String) (evs : List SpliceEvent) (acc : SpliceAcc) :
    spliceMeasure (spliceLoop tok evs acc).1 = spliceMeasure acc := by
  induction evs generalizing acc with
  | nil => rfl
  | cons e rest ih =>
    cases e with
    | eof => rfl
    | timeout => exact ih acc
    | readErr => rfl
    | chunk bytes writeOk =>
      by_cases hz : bytes.length = 0
      · simp [spliceLoop, hz]
      · by_cases hw : writeOk
        · by_cases hf : acc.localChunk + bytes.length ≥ chunkFold
          · simp only [spliceLoop, hz, hw, if_false, if_true, ite_true, ite_false, hf]
            rw [ih]
            simp [spliceMeasure]
            ring
          · simp only [spliceLoop, hz, hw, if_false, if_true, ite_true, ite_false, hf]
            rw [ih]
            simp [spliceMeasure]
            ring
        · simp [spliceLoop, hz, hw]

theorem spliceLoop_filesTransferred (tok : String) (evs : List SpliceEvent) (acc : SpliceAcc) :
    (spliceLoop tok evs acc).1.stats.filesTransferred = acc.stats.filesTransferred := by
  induction evs generalizing acc with
  | nil => rfl
  | cons e rest ih =>
    cases e with
    | eof => rfl
    | timeout => exact ih acc
    | readErr => rfl
    | chunk bytes writeOk =>
      by_cases hz : bytes.length = 0
      · simp [spliceLoop, hz]
      · by_cases hw : writeOk
        · by_cases hf : acc.localChunk + bytes.length ≥ chunkFold
          · simp only [spliceLoop, hz, hw, if_false, if_true, ite_true, ite_false, hf]
            rw [ih]
          · simp only [spliceLoop, hz, hw, if_false, if_true, ite_true, ite_false, hf]
            rw [ih]
        · simp [spliceLoop, hz, hw]

/-- The splice loop leaves `activeStreams` alone except on the non-timeout
read-error exit, where `handleStreamError` has erased the token's entry
without closing the connection. -/
theorem spliceLoop_streams (tok : String) (evs : List SpliceEvent) (acc : SpliceAcc) :
    (spliceLoop tok evs acc).1.activeStreams =
      (if (spliceLoop tok evs acc).2 = .readErrEnd
       then streamErase acc.activeStreams tok
       else acc.activeStreams) := by
  induction evs generalizing acc with
  | nil => rfl
  | cons e rest ih =>
    cases e with
    | eof => rfl
    | timeout => exact ih acc
    | readErr => rfl
    | chunk bytes writeOk =>
      by_cases hz : bytes.length = 0
      · simp [spliceLoop, hz]
      · by_cases hw : writeOk
        · by_cases hf : acc.localChunk + bytes.length ≥ chunkFold
          · simp only [spliceLoop, hz, hw, if_false, if_true, ite_true, ite_false, hf]
            exact ih _
          · simp only [spliceLoop, hz, hw, if_false, if_true, ite_true, ite_false, hf]
            exact ih _
        · simp [spliceLoop, hz, hw]

/-! ## Concrete fixtures for the instance theorems -/

/-- A degenerate RNG oracle that always draws 0 (so the in-range minter
produces a run of the letter `a`). -/
def rnd0 : Nat → Nat := fun _ => 0

/-- The freshly started bridge state. -/
def st0 : BridgeState :=
  { fileRegistry := [], activeStreams := [], downloadCompleted := []
    serverStats := { filesRegistered := 0, filesTransferred := 0, bytesTransferred := 0 } }

/-- A session registered at instant 0 under token `"aaaaaa"`. -/
def oldMeta : FileMetadata := regMetadata ⟨"old.txt", 1⟩ 0 "10.0.0.1" "aaaaaa"

/-- A bridge state already holding the session `"aaaaaa"`. -/
def stCollide : BridgeState :=
  { fileRegistry := [("aaaaaa", oldMeta)], activeStreams := [], downloadCompleted := []
    serverStats := { filesRegistered := 1, filesTransferred := 0, bytesTransferred := 0 } }

/-! ## C5 — register error and success paths -/

/-- C5: `POST /register` returns 400 when the body is absent, undecodable or
carries an empty filename; 413 when the declared size exceeds the configured
maximum (GiB at the boundary, `g * 2^30` bytes internally); otherwise it
inserts a session in state `registered` and returns 200 with the token. -/
theorem register_http_responses (g l : Int) (rnd ub : Nat → Nat) (now : Int) (ip : String)
    (d : RegisterData) (st : BridgeState) :
    maxFileSizeBytes g = g * 1073741824
    ∧ handleFileRegistration (maxFileSizeBytes g) l rnd ub now ip none st = (.badRequest, st)
    ∧ handleFileRegistration (maxFileSizeBytes g) l rnd ub now ip (some none) st
        = (.badRequest, st)
    ∧ (d.filename = "" →
        handleFileRegistration (maxFileSizeBytes g) l rnd ub now ip (some (some d)) st
          = (.badRequest, st))
    ∧ (d.filename ≠ "" → d.size > maxFileSizeBytes g →
        handleFileRegistration (maxFileSizeBytes g) l rnd ub now ip (some (some d)) st
          = (.tooLarge, st))
    ∧ (d.filename ≠ "" → ¬ d.size > maxFileSizeBytes g →
        (handleFileRegistration (maxFileSizeBytes g) l rnd ub now ip (some (some d)) st).1
            = .ok (createNewID l rnd ub) (now + twoHours)
        ∧ (regMetadata d now ip (createNewID l rnd ub)).status = "registered"
        ∧ registryLookup
            (handleFileRegistration (maxFileSizeBytes g) l rnd ub now ip
              (some (some d)) st).2.fileRegistry (createNewID l rnd ub)
            = some (regMetadata d now ip (createNewID l rnd ub))
        ∧ (handleFileRegistration (maxFileSizeBytes g) l rnd ub now ip
            (some (some d)) st).2.serverStats.filesRegistered
            = st.serverStats.filesRegistered + 1) := by
  refine ⟨by unfold maxFileSizeBytes; ring, rfl, rfl, ?_, ?_, ?_⟩
  · intro hname
    simp [handleFileRegistration, hname]
  · intro hname hsize
    simp [handleFileRegistration, hname, hsize]
  · intro hname hsize
    refine ⟨?_, rfl, ?_, ?_⟩
    · simp [handleFileRegistration, hname, hsize]
    · simp only [handleFileRegistration, hname, hsize, ite_false, if_neg]
      exact registryLookup_insert_self _ _ _
    · simp [handleFileRegistration, hname, hsize]

/-- C5 witness: a concrete oversize registration (200 GiB against a 100 GiB
limit) is rejected with 413 and leaves the state unchanged. -/
theorem register_http_responses_witness :
    ("big.bin" : String) ≠ ""
    ∧ (200 * 1073741824 : Int) > maxFileSizeBytes 100
    ∧ handleFileRegistration (maxFileSizeBytes 100) 8 rnd0 rnd0 7 "ip"
        (some (some ⟨"big.bin", 200 * 1073741824⟩)) st0 = (.tooLarge, st0) :=
  ⟨by decide, by decide,
   (register_http_responses 100 8 rnd0 rnd0 7 "ip" ⟨"big.bin", 200 * 1073741824⟩ st0).2.2.2.2.1
     (by decide) (by decide)⟩

/-! ## C6 — token format -/

theorem charset_getD_mem (k : Nat) : charset.getD (k % 62) 'a' ∈ charset := by
  have hlen : charset.length = 62 := by decide
  have hk : k % 62 < charset.length := by
    rw [hlen]
    exact Nat.mod_lt _ (by norm_num)
  rw [List.getD_eq_getElem charset 'a' hk]
  exact charset.getElem_mem hk

/-- C6 (amended): with a configured length `L ∈ [6, 32]` the minted token is
exactly `L` characters, each drawn from the 62-character alphabet; for an
out-of-range `L`, `main` resets the length to the default 8 before
constructing the bridge, so the token minted by the running program is an
8-character alphabet string, not a UUID — the 36-character hyphenated UUID
fallback fires only when `createNewID` itself is invoked with an out-of-range
`TokenLength`. -/
theorem token_mint_format (l : Int) (rnd ub : Nat → Nat) :
    (6 ≤ l → l ≤ 32 →
      (createNewID l rnd ub).length = l.toNat
      ∧ charset.length = 62
      ∧ ∀ c ∈ (createNewID l rnd ub).toList, c ∈ charset)
    ∧ ((l < 6 ∨ 32 < l) →
      createNewID (resolveTokenLen l) rnd ub = createNewID 8 rnd ub
      ∧ (createNewID (resolveTokenLen l) rnd ub).length = 8
      ∧ (createNewID l rnd ub).length = 36) := by
  constructor
  · intro h6 h32
    have hin : ¬ (l < 6 ∨ l > 32) := by
      push_neg
      exact ⟨h6, h32⟩
    refine ⟨?_, by decide, ?_⟩
    · show (if l < 6 ∨ l > 32 then uuidString ub
        else String.mk ((List.range l.toNat).map fun i => charset.getD (rnd i % 62) 'a')).length
          = l.toNat
      rw [if_neg hin]
      show ((List.range l.toNat).map fun i => charset.getD (rnd i % 62) 'a').length = l.toNat
      rw [List.length_map, List.length_range]
    · intro c hc
      rw [createNewID, if_neg hin] at hc
      have hc2 : c ∈ (List.range l.toNat).map fun i => charset.getD (rnd i % 62) 'a' := hc
      obtain ⟨i, _, hival⟩ := List.mem_map.mp hc2
      rw [← hival]
      exact charset_getD_mem _
  · intro hout
    have hres : resolveTokenLen l = 8 := by
      rw [resolveTokenLen, if_pos]
      rcases hout with h | h
      · exact Or.inl h
      · exact Or.inr h
    refine ⟨by rw [hres], ?_, ?_⟩
    · rw [hres]
      show (if (8 : Int) < 6 ∨ (8 : Int) > 32 then uuidString ub
        else String.mk ((List.range (8 : Int).toNat).map
          fun i => charset.getD (rnd i % 62) 'a')).length = 8
      rw [if_neg (by decide)]
      show ((List.range (8 : Int).toNat).map fun i => charset.getD (rnd i % 62) 'a').length = 8
      rw [List.length_map, List.length_range]
      rfl
    · have hcond : l < 6 ∨ l > 32 := by
        rcases hout with h | h
        · exact Or.inl h
        · exact Or.inr h
      rw [createNewID, if_pos hcond]
      show (byteHex (uuidByte ub 0) ++ byteHex (uuidByte ub 1) ++
        byteHex (uuidByte ub 2) ++ byteHex (uuidByte ub 3) ++ ['-'] ++
        byteHex (uuidByte ub 4) ++ byteHex (uuidByte ub 5) ++ ['-'] ++
        byteHex (uuidByte ub 6) ++ byteHex (uuidByte ub 7) ++ ['-'] ++
        byteHex (uuidByte ub 8) ++ byteHex (uuidByte ub 9) ++ ['-'] ++
        byteHex (uuidByte ub 10) ++ byteHex (uuidByte ub 11) ++
        byteHex (uuidByte ub 12) ++ byteHex (uuidByte ub 13) ++
        byteHex (uuidByte ub 14) ++ byteHex (uuidByte ub 15)).length = 36
      simp [byteHex]

/-- C6 witness: for the in-range configured length 8 with the all-zero RNG
the minted token is 8 characters long and each character is in the
alphabet. -/
theorem token_mint_format_witness :
    (6 : Int) ≤ 8
    ∧ (8 : Int) ≤ 32
    ∧ ((createNewID 8 rnd0 rnd0).length = (8 : Int).toNat
        ∧ charset.length = 62
        ∧ ∀ c ∈ (createNewID 8 rnd0 rnd0).toList, c ∈ charset) :=
  ⟨by decide, by decide, (token_mint_format 8 rnd0 rnd0).1 (by decide) (by decide)⟩

/-- C6 counterexample: a configured token length of 40 is out of range, yet
the token the program mints (after `main` clamps the length to 8) has 8
characters, not the 36 of a canonical hyphenated UUID. -/
theorem token_mint_out_of_range_counterexample :
    (createNewID (resolveTokenLen 40) rnd0 rnd0).length = 8
    ∧ (createNewID (resolveTokenLen 40) rnd0 rnd0).length ≠ 36 := by
  constructor
  · rfl
  · decide

/-! ## C7 — no collision retry: register overwrites -/

/-- C7 (amended): the registration handler inserts the single token it mints
with no collision check — on a collision the existing session's entry is
overwritten rather than the minter retrying; all other entries are
untouched. -/
theorem register_insert_unconditional (mx l : Int) (rnd ub : Nat → Nat) (now : Int)
    (ip : String) (d : RegisterData) (st : BridgeState)
    (hname : d.filename ≠ "") (hsize : ¬ d.size > mx) :
    (handleFileRegistration mx l rnd ub now ip (some (some d)) st).1
        = .ok (createNewID l rnd ub) (now + twoHours)
    ∧ registryLookup
        (handleFileRegistration mx l rnd ub now ip (some (some d)) st).2.fileRegistry
        (createNewID l rnd ub) = some (regMetadata d now ip (createNewID l rnd ub))
    ∧ ∀ t, t ≠ createNewID l rnd ub →
        registryLookup
          (handleFileRegistration mx l rnd ub now ip (some (some d)) st).2.fileRegistry t
          = registryLookup st.fileRegistry t := by
  refine ⟨?_, ?_, ?_⟩
  · simp [handleFileRegistration, hname, hsize]
  · simp only [handleFileRegistration, hname, hsize, ite_false, if_neg]
    exact registryLookup_insert_self _ _ _
  · intro t ht
    simp only [handleFileRegistration, hname, hsize, ite_false, if_neg]
    exact registryLookup_insert_ne _ _ _ _ ht

/-- C7 witness: a fresh registration into a state whose registry does not
hold the minted token binds the token and leaves the (empty) rest of the
registry unchanged. -/
theorem register_insert_unconditional_witness :
    ("new.txt" : String) ≠ ""
    ∧ ¬ (2 : Int) > 1000
    ∧ ((handleFileRegistration 1000 6 rnd0 rnd0 99 "ip"
          (some (some ⟨"new.txt", 2⟩)) st0).1
        = .ok (createNewID 6 rnd0 rnd0) (99 + twoHours)
      ∧ registryLookup
          (handleFileRegistration 1000 6 rnd0 rnd0 99 "ip"
            (some (some ⟨"new.txt", 2⟩)) st0).2.fileRegistry
          (createNewID 6 rnd0 rnd0) = some (regMetadata ⟨"new.txt", 2⟩ 99 "ip"
            (createNewID 6 rnd0 rnd0))
      ∧ ∀ t, t ≠ createNewID 6 rnd0 rnd0 →
          registryLookup
            (handleFileRegistration 1000 6 rnd0 rnd0 99 "ip"
              (some (some ⟨"new.txt", 2⟩)) st0).2.fileRegistry t
            = registryLookup st0.fileRegistry t) :=
  ⟨by decide, by decide,
   register_insert_unconditional 1000 6 rnd0 rnd0 99 "ip" ⟨"new.txt", 2⟩ st0
     (by decide) (by decide)⟩

/-- C7 counterexample: with the all-zero RNG the minter produces `"aaaaaa"`
for length 6; registering into a state that already holds a session under
`"aaaaaa"` silently replaces that session's entry — no retry happens. -/
theorem register_collision_overwrites :
    createNewID 6 rnd0 rnd0 = "aaaaaa"
    ∧ registryLookup stCollide.fileRegistry "aaaaaa" = some oldMeta
    ∧ registryLookup (handleFileRegistration 1000 6 rnd0 rnd0 99 "ip"
        (some (some ⟨"new.txt", 2⟩)) stCollide).2.fileRegistry "aaaaaa"
        = some (regMetadata ⟨"new.txt", 2⟩ 99 "ip" "aaaaaa")
    ∧ regMetadata ⟨"new.txt", 2⟩ 99 "ip" "aaaaaa" ≠ oldMeta := by
  refine ⟨by decide, rfl, by decide, by decide⟩

/-! ## C8 — expiry sweep boundary -/

/-- A session whose `expiresAt` is exactly `twoHours` (registered at 0). -/
def edgeMeta : FileMetadata := regMetadata ⟨"edge.txt", 5⟩ 0 "ip" "tokexp"

/-- A state holding only the boundary session. -/
def stEdge : BridgeState :=
  { fileRegistry := [("tokexp", edgeMeta)], activeStreams := [], downloadCompleted := []
    serverStats := { filesRegistered := 1, filesTransferred := 0, bytesTransferred := 0 } }

/-- C8 (amended): the sweep evaluated at `now` selects exactly the sessions
whose `expires_at` is strictly earlier than `now` (the Go code tests
`ExpiresAt.Before(now)`, so a session with `expires_at = now` is not swept),
and each selected session is evicted from the registry. -/
theorem sweep_strict_boundary (st : BridgeState) (now : Int) (tok : String)
    (hnd : (st.fileRegistry.map Prod.fst).Nodup) :
    (tok ∈ sweepExpired st now ↔
      ∃ m, registryLookup st.fileRegistry tok = some m ∧ m.expiresAt < now)
    ∧ (tok ∈ sweepExpired st now →
        registryLookup (cleanupTick st now).1.fileRegistry tok = none)
    ∧ (∀ m, registryLookup st.fileRegistry tok = some m → m.expiresAt = now →
        tok ∉ sweepExpired st now) := by
  have hiff : tok ∈ sweepExpired st now ↔
      ∃ m, registryLookup st.fileRegistry tok = some m ∧ m.expiresAt < now := by
    constructor
    · intro hmem
      obtain ⟨q, hqf, hq1⟩ := List.mem_map.mp hmem
      have hq2 := List.mem_filter.mp hqf
      have hexp : q.2.expiresAt < now := by simpa using hq2.2
      have hqe : (tok, q.2) = q := by rw [← hq1]
      refine ⟨q.2, ?_, hexp⟩
      exact registryLookup_of_mem_nodup _ _ _ (hqe ▸ hq2.1) hnd
    · rintro ⟨m, hlook, hexp⟩
      have hmem := registryLookup_mem _ _ _ hlook
      refine List.mem_map.mpr ⟨(tok, m), ?_, rfl⟩
      exact List.mem_filter.mpr ⟨hmem, by simpa using hexp⟩
  refine ⟨hiff, ?_, ?_⟩
  · intro hmem
    exact cleanupFold_lookup_none _ _ _ (Or.inl hmem)
  · intro m hlook heq hmem
    obtain ⟨m', hlook', hexp'⟩ := hiff.mp hmem
    rw [hlook] at hlook'
    cases hlook'
    rw [heq] at hexp'
    exact lt_irrefl _ hexp'

/-- C8 witness: a concretely expired session (swept one nanosecond after its
deadline) is selected and evicted. -/
theorem sweep_strict_boundary_witness :
    ((stEdge.fileRegistry.map Prod.fst).Nodup
    ∧ "tokexp" ∈ sweepExpired stEdge (twoHours + 1))
    ∧ registryLookup (cleanupTick stEdge (twoHours + 1)).1.fileRegistry "tokexp" = none :=
  ⟨⟨by decide, by decide⟩,
   (sweep_strict_boundary stEdge (twoHours + 1) "tokexp" (by decide)).2.1 (by decide)⟩

/-- C8 counterexample: a session whose `expires_at` equals `now` is not
selected by the sweep and survives the tick, contradicting the claimed
inclusive boundary. -/
theorem sweep_inclusive_boundary_counterexample :
    edgeMeta.expiresAt = twoHours
    ∧ sweepExpired stEdge twoHours = []
    ∧ registryLookup (cleanupTick stEdge twoHours).1.fileRegistry "tokexp" = some edgeMeta := by
  refine ⟨rfl, by decide, by decide⟩

/-! ## C9 — status handler and the completed flag -/

/-- A session whose download-completed flag is set while its registry entry is
still present (the transient state between marking and eviction). -/
def doneMeta : FileMetadata := regMetadata ⟨"done.txt", 4⟩ 0 "ip" "t1"

def stDone : BridgeState :=
  { fileRegistry := [("t1", doneMeta)], activeStreams := [], downloadCompleted := ["t1"]
    serverStats := { filesRegistered := 1, filesTransferred := 1, bytesTransferred := 4 } }

/-- C9 (amended): `GET /status/{token}` returns 404 exactly when the token is
absent from the registry; whenever an entry is present — including one whose
completed flag is set — it returns a 200 snapshot whose `download_completed`
field reports the flag. -/
theorem status_notFound_iff_absent (st : BridgeState) (tok : String) :
    (handleStatusCheck st tok = .notFound ↔ registryLookup st.fileRegistry tok = none)
    ∧ (∀ m, registryLookup st.fileRegistry tok = some m →
        ∃ p, handleStatusCheck st tok = .ok p
          ∧ p.downloadCompleted = completedFlag st tok
          ∧ p.status = m.status
          ∧ p.filename = m.filename
          ∧ p.size = m.size) := by
  constructor
  · cases hlook : registryLookup st.fileRegistry tok with
    | none => simp [handleStatusCheck, hlook]
    | some m => simp [handleStatusCheck, hlook]
  · intro m hlook
    refine ⟨{ filename := m.filename, originalFilename := m.originalFilename, size := m.size
              status := m.status, clientIP := m.clientIP, registeredAt := m.registeredAt
              expiresAt := m.expiresAt, downloadCompleted := completedFlag st tok
              streamStarted := if m.streamStarted = 0 then none else some m.streamStarted
              clientAddress := if m.clientAddress = "" then none else some m.clientAddress },
            ?_, rfl, rfl, rfl, rfl⟩
    simp [handleStatusCheck, hlook]

/-- C9 witness: at a concrete state with a present entry, the iff gives 404 is
not returned, and the snapshot branch applies. -/
theorem status_notFound_iff_absent_witness :
    registryLookup stDone.fileRegistry "t1" = some doneMeta
    ∧ (∃ p, handleStatusCheck stDone "t1" = .ok p
        ∧ p.downloadCompleted = completedFlag stDone "t1"
        ∧ p.status = doneMeta.status
        ∧ p.filename = doneMeta.filename
        ∧ p.size = doneMeta.size) :=
  ⟨rfl, (status_notFound_iff_absent stDone "t1").2 doneMeta rfl⟩

/-- C9 counterexample: a token whose download is marked completed while the
session entry is still present receives a 200 snapshot (with
`download_completed = true`), not the claimed 404. -/
theorem status_completed_entry_counterexample :
    completedFlag stDone "t1" = true
    ∧ handleStatusCheck stDone "t1" ≠ .notFound
    ∧ (∃ p, handleStatusCheck stDone "t1" = .ok p ∧ p.downloadCompleted = true) :=
  ⟨rfl, by decide, ⟨_, rfl, rfl⟩⟩

/-! ## C2 — attach_stream (handshake validation + state update) -/

theorem streamLookup_insert_self (s : Streams) (tok : String) (c : Nat) :
    streamLookup (streamInsert s tok c) tok = some c := by
  simp [streamInsert, streamLookup]

/-- Registry well-formedness, maintained by every insertion the program does:
the metadata stored under a token carries that token in its `AuthToken`
field. -/
def registryWF (st : BridgeState) : Prop :=
  ∀ tok m, registryLookup st.fileRegistry tok = some m → m.authToken = tok

/-- C2: handshake validation succeeds exactly when a session with the token
exists, it is in state `registered`, its deadline has not passed
(`now ≤ expires_at`), and its download is not marked completed; and on
success the acceptor transitions the session to `streaming` and stores the
stream connection, the provider's peer address and the stream-start
timestamp. -/
theorem attach_stream_spec (st : BridgeState) (now : Int) (tok peer : String)
    (connId : Nat) (hwf : registryWF st) :
    (validateStreamConnection st now tok = true ↔
      ∃ m, registryLookup st.fileRegistry tok = some m
        ∧ m.status = "registered"
        ∧ now ≤ m.expiresAt
        ∧ completedFlag st tok = false)
    ∧ (∀ m, validateStreamConnection st now tok = true →
        registryLookup st.fileRegistry tok = some m →
        (handleStreamConnection st now peer connId (.metadata tok)).writes
            = ["STREAM_READY\n"]
        ∧ (handleStreamConnection st now peer connId (.metadata tok)).connClosed = false
        ∧ registryLookup
            (handleStreamConnection st now peer connId (.metadata tok)).newState.fileRegistry
            tok
            = some { m with status := "streaming", streamStarted := now
                            clientAddress := peer }
        ∧ streamLookup
            (handleStreamConnection st now peer connId (.metadata tok)).newState.activeStreams
            tok
            = some connId) := by
  constructor
  · cases hlook : registryLookup st.fileRegistry tok with
    | none =>
      simp only [validateStreamConnection, hlook]
      constructor
      · intro h
        exact absurd h (by simp)
      · rintro ⟨m, hm, -⟩
        simp at hm
    | some m =>
      have hauth : m.authToken = tok := hwf tok m hlook
      simp only [validateStreamConnection, hlook]
      rw [if_neg (by simp [hauth])]
      constructor
      · intro h
        by_cases hst : m.status = "registered"
        · rw [if_neg (by simp [hst])] at h
          by_cases hexp : m.expiresAt < now
          · rw [if_pos hexp] at h
            exact absurd h (by simp)
          · rw [if_neg hexp] at h
            by_cases hcf : completedFlag st tok
            · rw [if_pos hcf] at h
              exact absurd h (by simp)
            · refine ⟨m, rfl, hst, not_lt.mp hexp, by simpa using hcf⟩
        · rw [if_pos (by simp [hst])] at h
          exact absurd h (by simp)
      · rintro ⟨m', hm', hst, hexp, hcf⟩
        injection hm' with hmm
        subst hmm
        rw [if_neg (by simp [hst]), if_neg (not_lt.mpr hexp), if_neg (by simp [hcf])]
  · intro m hv hlook
    refine ⟨?_, ?_, ?_, ?_⟩
    · simp [handleStreamConnection, hv]
    · simp [handleStreamConnection, hv]
    · simp only [handleStreamConnection, hv, ite_true, hlook]
      exact registryLookup_insert_self _ _ _
    · simp only [handleStreamConnection, hv, ite_true]
      exact streamLookup_insert_self _ _ _

/-- A registered session fixture for the attach witness: registered at 10,
token `"tk1"`. -/
def regSessionMeta : FileMetadata := regMetadata ⟨"w.txt", 3⟩ 10 "1.2.3.4" "tk1"

def stReg : BridgeState :=
  { fileRegistry := [("tk1", regSessionMeta)], activeStreams := [], downloadCompleted := []
    serverStats := { filesRegistered := 1, filesTransferred := 0, bytesTransferred := 0 } }

theorem stReg_wf : registryWF stReg := by
  intro tok m h
  by_cases ht : "tk1" = tok
  · simp only [stReg, registryLookup, ht, ite_true] at h
    cases h
    exact ht
  · simp only [stReg, registryLookup, ht, ite_false] at h
    cases h

/-- C2 witness: a concrete valid handshake at instant 20 for the session
registered at 10 succeeds and performs the claimed update. -/
theorem attach_stream_spec_witness :
    validateStreamConnection stReg 20 "tk1" = true
    ∧ registryLookup stReg.fileRegistry "tk1" = some regSessionMeta
    ∧ ((handleStreamConnection stReg 20 "peer9" 7 (.metadata "tk1")).writes
          = ["STREAM_READY\n"]
      ∧ (handleStreamConnection stReg 20 "peer9" 7 (.metadata "tk1")).connClosed = false
      ∧ registryLookup
          (handleStreamConnection stReg 20 "peer9" 7 (.metadata "tk1")).newState.fileRegistry
          "tk1"
          = some { regSessionMeta with status := "streaming", streamStarted := 20
                                       clientAddress := "peer9" }
      ∧ streamLookup
          (handleStreamConnection stReg 20 "peer9" 7 (.metadata "tk1")).newState.activeStreams
          "tk1"
          = some 7) :=
  ⟨by decide, rfl,
   (attach_stream_spec stReg 20 "tk1" "peer9" 7 stReg_wf).2 regSessionMeta (by decide) rfl⟩

/-! ## C3 — handshake failure replies -/

/-- C3 (amended): when the metadata line decodes but validation fails
(unknown token, wrong state, expired, or completed), the acceptor writes the
literal `INVALID_CONNECTION\n` and closes; when the line is malformed or not
received (read error / 15-second deadline), the acceptor closes the
connection without writing anything. -/
theorem handshake_failure_behavior (st : BridgeState) (now : Int) (peer raw tok : String)
    (connId : Nat) :
    (validateStreamConnection st now tok = false →
      handleStreamConnection st now peer connId (.metadata tok)
        = { writes := ["INVALID_CONNECTION\n"], connClosed := true, newState := st })
    ∧ handleStreamConnection st now peer connId (.malformed raw)
        = { writes := [], connClosed := true, newState := st }
    ∧ handleStreamConnection st now peer connId .readError
        = { writes := [], connClosed := true, newState := st } := by
  refine ⟨?_, rfl, rfl⟩
  intro hv
  simp [handleStreamConnection, hv]

/-- C3 witness: a decoded handshake carrying an unknown token is answered
with the literal `INVALID_CONNECTION\n` and the connection is closed. -/
theorem handshake_failure_behavior_witness :
    validateStreamConnection st0 0 "nope" = false
    ∧ handleStreamConnection st0 0 "peer" 3 (.metadata "nope")
        = { writes := ["INVALID_CONNECTION\n"], connClosed := true, newState := st0 } :=
  ⟨by decide,
   (handshake_failure_behavior st0 0 "peer" "" "nope" 3).1 (by decide)⟩

/-- C3 counterexample: a connection whose metadata line is malformed is
closed without `INVALID_CONNECTION\n` (nothing at all is written),
contradicting the claim that every handshake failure gets that reply. -/
theorem malformed_handshake_counterexample :
    (handleStreamConnection st0 50 "peer" 3 (.malformed "oops")).connClosed = true
    ∧ (handleStreamConnection st0 50 "peer" 3 (.malformed "oops")).writes = []
    ∧ (handleStreamConnection st0 50 "peer" 3 (.malformed "oops")).writes
        ≠ ["INVALID_CONNECTION\n"] :=
  ⟨rfl, rfl, by decide⟩

/-! ## C4 — splice-loop read-error policy -/

theorem spliceLoop_filter_timeouts (tok : String) (evs : List SpliceEvent) (acc : SpliceAcc) :
    spliceLoop tok evs acc
      = spliceLoop tok (evs.filter (fun e => e ≠ SpliceEvent.timeout)) acc := by
  induction evs generalizing acc with
  | nil => rfl
  | cons e rest ih =>
    cases e with
    | timeout =>
      rw [List.filter_cons_of_neg (by simp)]
      exact ih acc
    | eof =>
      rw [List.filter_cons_of_pos (by simp)]
      rfl
    | readErr =>
      rw [List.filter_cons_of_pos (by simp)]
      rfl
    | chunk bytes writeOk =>
      rw [List.filter_cons_of_pos (by simp)]
      by_cases hz : bytes.length = 0
      · simp [spliceLoop, hz]
      · by_cases hw : writeOk
        · by_cases hf : acc.localChunk + bytes.length ≥ chunkFold
          · simp only [spliceLoop, hz, hw, if_false, if_true, ite_true, ite_false, hf]
            exact ih _
          · simp only [spliceLoop, hz, hw, if_false, if_true, ite_true, ite_false, hf]
            exact ih _
        · simp [spliceLoop, hz, hw]

/-- C4: a read timeout is never fatal — the splice over any event sequence
equals the splice over that sequence with every timeout removed (so timeouts
lose no bytes and leave the accumulated state, including the session's stream
entry, untouched, and the following read is simply retried); a non-timeout
read error terminates the splice at once (running `handleStreamError`); EOF
terminates it as a successful transfer. -/
theorem splice_read_error_policy (tok : String) (evs : List SpliceEvent) (acc : SpliceAcc) :
    spliceLoop tok evs acc
      = spliceLoop tok (evs.filter (fun e => e ≠ SpliceEvent.timeout)) acc
    ∧ spliceLoop tok (SpliceEvent.timeout :: evs) acc = spliceLoop tok evs acc
    ∧ spliceLoop tok (SpliceEvent.readErr :: evs) acc
        = (handleStreamError tok acc, SpliceEnd.readErrEnd)
    ∧ spliceLoop tok (SpliceEvent.eof :: evs) acc = (acc, SpliceEnd.eofEnd) :=
  ⟨spliceLoop_filter_timeouts tok evs acc, rfl, rfl, rfl⟩

/-! ## C10 — the download path performs no expiry check -/

/-- C10: for a session still present in the registry in state `registered` or
`streaming` with its provider stream attached, `GET /download/{token}`
proceeds to set the response headers and attempt the splice even when the
session's `expires_at` is already in the past — the handler never consults
the deadline. -/
theorem download_ignores_expiry (st : BridgeState) (tok : String) (m : FileMetadata)
    (connId : Nat) (now : Int) (evs : List SpliceEvent)
    (hm : registryLookup st.fileRegistry tok = some m)
    (hc : completedFlag st tok = false)
    (hs : m.status = "registered" ∨ m.status = "streaming")
    (hstream : streamLookup st.activeStreams tok = some connId)
    (hexp : m.expiresAt < now) :
    ∃ body endKind,
      (handleDownloadRequest st tok evs).1
        = .streamed (downloadHeaders m tok) body endKind := by
  have hcond : ¬ (m.status ≠ "streaming" ∧ m.status ≠ "registered") := by
    rcases hs with h | h
    · exact fun hn => hn.2 h
    · exact fun hn => hn.1 h
  refine ⟨(spliceLoop tok evs (spliceInit st)).1.output,
          (spliceLoop tok evs (spliceInit st)).2, ?_⟩
  simp only [handleDownloadRequest, hm, hc, Bool.false_eq_true, if_false, ite_false]
  rw [if_neg hcond]
  simp only [hstream]

/-! ## C1 — download termination: stats, completion, eviction, single-use -/

theorem removeFileResources_closed (st : BridgeState) (tok : String) :
    (removeFileResources st tok).2
      = match streamLookup st.activeStreams tok with
        | some c => [c]
        | none => [] := rfl

/-- C1 (amended): whenever a download reaches the splice stage, on every
termination of the splice the handler folds the residual local byte count
into the global `bytes_transferred` (the counter advances by exactly the
number of bytes delivered), bumps `files_transferred`, sets the completed
flag and then evicts the session, so the token is gone from the registry and
every subsequent `GET /download` with it returns 404 without changing the
state.  Eviction closes the provider socket on the EOF, zero-read and
consumer-write-error terminations; on a non-timeout read error the error
handler has already dropped the stream entry without closing it, so no socket
is closed. -/
theorem download_termination_cleanup (st : BridgeState) (tok : String) (m : FileMetadata)
    (connId : Nat) (evs : List SpliceEvent)
    (hm : registryLookup st.fileRegistry tok = some m)
    (hc : completedFlag st tok = false)
    (hs : m.status = "registered" ∨ m.status = "streaming")
    (hstream : streamLookup st.activeStreams tok = some connId) :
    ∃ body endKind,
      (handleDownloadRequest st tok evs).1 = .streamed (downloadHeaders m tok) body endKind
      ∧ (handleDownloadRequest st tok evs).2.1.serverStats.bytesTransferred
          = st.serverStats.bytesTransferred + body.length
      ∧ (handleDownloadRequest st tok evs).2.1.serverStats.filesTransferred
          = st.serverStats.filesTransferred + 1
      ∧ registryLookup (handleDownloadRequest st tok evs).2.1.fileRegistry tok = none
      ∧ streamLookup (handleDownloadRequest st tok evs).2.1.activeStreams tok = none
      ∧ completedFlag (handleDownloadRequest st tok evs).2.1 tok = false
      ∧ (endKind ≠ SpliceEnd.readErrEnd → (handleDownloadRequest st tok evs).2.2 = [connId])
      ∧ (endKind = SpliceEnd.readErrEnd → (handleDownloadRequest st tok evs).2.2 = [])
      ∧ (∀ evs', handleDownloadRequest (handleDownloadRequest st tok evs).2.1 tok evs'
          = (.notFound, (handleDownloadRequest st tok evs).2.1, [])) := by
  have hcond : ¬ (m.status ≠ "streaming" ∧ m.status ≠ "registered") := by
    rcases hs with h | h
    · exact fun hn => hn.2 h
    · exact fun hn => hn.1 h
  have hred : handleDownloadRequest st tok evs
      = (.streamed (downloadHeaders m tok) (spliceLoop tok evs (spliceInit st)).1.output
           (spliceLoop tok evs (spliceInit st)).2,
         (removeFileResources
           (markCompleted st tok (spliceLoop tok evs (spliceInit st)).1) tok).1,
         (removeFileResources
           (markCompleted st tok (spliceLoop tok evs (spliceInit st)).1) tok).2) := by
    simp only [handleDownloadRequest, hm, hc, Bool.false_eq_true, if_false, ite_false]
    rw [if_neg hcond]
    simp only [hstream]
  refine ⟨(spliceLoop tok evs (spliceInit st)).1.output,
          (spliceLoop tok evs (spliceInit st)).2,
          ?_, ?_, ?_, ?_, ?_, ?_, ?_, ?_, ?_⟩
  · rw [hred]
  · rw [hred]
    show (markCompleted st tok (spliceLoop tok evs (spliceInit st)).1).serverStats.bytesTransferred
      = st.serverStats.bytesTransferred + (spliceLoop tok evs (spliceInit st)).1.output.length
    have hinit : spliceMeasure (spliceInit st) = st.serverStats.bytesTransferred := by
      simp [spliceMeasure, spliceInit]
    have hmeas := spliceLoop_measure tok evs (spliceInit st)
    rw [hinit] at hmeas
    simp only [spliceMeasure] at hmeas
    show (spliceLoop tok evs (spliceInit st)).1.stats.bytesTransferred
          + (spliceLoop tok evs (spliceInit st)).1.localChunk
        = st.serverStats.bytesTransferred + (spliceLoop tok evs (spliceInit st)).1.output.length
    linarith [hmeas]
  · rw [hred]
    show (markCompleted st tok (spliceLoop tok evs (spliceInit st)).1).serverStats.filesTransferred
      = st.serverStats.filesTransferred + 1
    have hft := spliceLoop_filesTransferred tok evs (spliceInit st)
    show (spliceLoop tok evs (spliceInit st)).1.stats.filesTransferred + 1
        = st.serverStats.filesTransferred + 1
    rw [hft]
    rfl
  · rw [hred]
    exact removeFileResources_lookup_self _ _
  · rw [hred]
    exact removeFileResources_stream_self _ _
  · rw [hred]
    exact removeFileResources_completed _ _
  · intro hne
    rw [hred, removeFileResources_closed]
    have hstr := spliceLoop_streams tok evs (spliceInit st)
    rw [if_neg hne] at hstr
    have hms : (markCompleted st tok (spliceLoop tok evs (spliceInit st)).1).activeStreams
        = st.activeStreams := hstr
    rw [hms, hstream]
  · intro heq
    rw [hred, removeFileResources_closed]
    have hstr := spliceLoop_streams tok evs (spliceInit st)
    rw [if_pos heq] at hstr
    have hms : (markCompleted st tok (spliceLoop tok evs (spliceInit st)).1).activeStreams
        = streamErase st.activeStreams tok := hstr
    rw [hms, streamLookup_erase_self]
  · intro evs'
    rw [hred]
    show handleDownloadRequest
        (removeFileResources (markCompleted st tok (spliceLoop tok evs (spliceInit st)).1) tok).1
        tok evs'
      = (.notFound,
         (removeFileResources (markCompleted st tok (spliceLoop tok evs (spliceInit st)).1) tok).1,
         [])
    have hnone : registryLookup
        (removeFileResources
          (markCompleted st tok (spliceLoop tok evs (spliceInit st)).1) tok).1.fileRegistry tok
        = none := removeFileResources_lookup_self _ _
    simp only [handleDownloadRequest, hnone]

/-- A streaming-session fixture: token `"ts"`, provider socket id 7,
registered at 0 so `expires_at = twoHours`. -/
def streamingMeta : FileMetadata :=
  { filename := "s.txt", originalFilename := "s.txt", size := 3, status := "streaming"
    clientIP := "ip", authToken := "ts", registeredAt := 0, expiresAt := twoHours
    streamStarted := 1, clientAddress := "pp" }

def stStreaming : BridgeState :=
  { fileRegistry := [("ts", streamingMeta)], activeStreams := [("ts", 7)]
    downloadCompleted := []
    serverStats := { filesRegistered := 1, filesTransferred := 0, bytesTransferred := 0 } }

/-- C1 witness: a concrete happy-path download (one 3-byte chunk then EOF)
reaches the splice, advances the counters, evicts the session and 404s any
repeat request. -/
theorem download_termination_cleanup_witness :
    registryLookup stStreaming.fileRegistry "ts" = some streamingMeta
    ∧ completedFlag stStreaming "ts" = false
    ∧ streamLookup stStreaming.activeStreams "ts" = some 7
    ∧ (∃ body endKind,
        (handleDownloadRequest stStreaming "ts"
            [SpliceEvent.chunk [1, 2, 3] true, SpliceEvent.eof]).1
          = .streamed (downloadHeaders streamingMeta "ts") body endKind
        ∧ (handleDownloadRequest stStreaming "ts"
            [SpliceEvent.chunk [1, 2, 3] true, SpliceEvent.eof]).2.1.serverStats.bytesTransferred
            = stStreaming.serverStats.bytesTransferred + body.length
        ∧ (handleDownloadRequest stStreaming "ts"
            [SpliceEvent.chunk [1, 2, 3] true, SpliceEvent.eof]).2.1.serverStats.filesTransferred
            = stStreaming.serverStats.filesTransferred + 1
        ∧ registryLookup (handleDownloadRequest stStreaming "ts"
            [SpliceEvent.chunk [1, 2, 3] true, SpliceEvent.eof]).2.1.fileRegistry "ts" = none
        ∧ streamLookup (handleDownloadRequest stStreaming "ts"
            [SpliceEvent.chunk [1, 2, 3] true, SpliceEvent.eof]).2.1.activeStreams "ts" = none
        ∧ completedFlag (handleDownloadRequest stStreaming "ts"
            [SpliceEvent.chunk [1, 2, 3] true, SpliceEvent.eof]).2.1 "ts" = false
        ∧ (endKind ≠ SpliceEnd.readErrEnd →
            (handleDownloadRequest stStreaming "ts"
              [SpliceEvent.chunk [1, 2, 3] true, SpliceEvent.eof]).2.2 = [7])
        ∧ (endKind = SpliceEnd.readErrEnd →
            (handleDownloadRequest stStreaming "ts"
              [SpliceEvent.chunk [1, 2, 3] true, SpliceEvent.eof]).2.2 = [])
        ∧ (∀ evs', handleDownloadRequest (handleDownloadRequest stStreaming "ts"
              [SpliceEvent.chunk [1, 2, 3] true, SpliceEvent.eof]).2.1 "ts" evs'
            = (.notFound, (handleDownloadRequest stStreaming "ts"
                [SpliceEvent.chunk [1, 2, 3] true, SpliceEvent.eof]).2.1, []))) :=
  ⟨rfl, rfl, rfl,
   download_termination_cleanup stStreaming "ts" streamingMeta 7
     [SpliceEvent.chunk [1, 2, 3] true, SpliceEvent.eof] rfl rfl (Or.inr rfl) rfl⟩

/-- C1 counterexample: on a non-timeout read error the splice terminates and
the session is evicted from the registry, but the list of closed connections
is empty — the provider socket (id 7) is never closed on this termination
path, because `handleStreamError` removed the stream entry without closing
it before the deferred eviction ran. -/
theorem download_read_error_socket_not_closed :
    streamLookup stStreaming.activeStreams "ts" = some 7
    ∧ (handleDownloadRequest stStreaming "ts" [SpliceEvent.readErr]).1
        = .streamed (downloadHeaders streamingMeta "ts") [] SpliceEnd.readErrEnd
    ∧ (handleDownloadRequest stStreaming "ts" [SpliceEvent.readErr]).2.2 = []
    ∧ registryLookup
        (handleDownloadRequest stStreaming "ts" [SpliceEvent.readErr]).2.1.fileRegistry "ts"
        = none := by
  refine ⟨rfl, ?_, ?_, ?_⟩ <;> decide

/-- C10 witness: the fixture session is already expired at instant
`twoHours + 5`, yet the download proceeds to the splice. -/
theorem download_ignores_expiry_witness :
    registryLookup stStreaming.fileRegistry "ts" = some streamingMeta
    ∧ streamingMeta.expiresAt < twoHours + 5
    ∧ (∃ body endKind,
        (handleDownloadRequest stStreaming "ts" []).1
          = .streamed (downloadHeaders streamingMeta "ts") body endKind) :=
  ⟨rfl, by decide,
   download_ignores_expiry stStreaming "ts" streamingMeta 7 (twoHours + 5) []
     rfl rfl (Or.inr rfl) rfl (by decide)⟩
